import Mathlib

/-!
Verification of the core of the `gemini-cli-mcp` repository (TypeScript),
shallowly embedded in Lean 4.

The embedding covers:
* `executeGeminiCommand` (src/gemini-cli.ts): the subprocess supervisor,
  modelled as a state machine driven by the events delivered by the Node
  event loop (`stdout`/`stderr` `data` events, `close`, `error`, and the
  timeout timer), together with its pre-spawn validation and test-mode
  short-circuit;
* `sanitizePrompt` and `simulateGeminiResponse` (src/gemini-cli.ts);
* the stdin line framer installed by `setupJsonValidation`
  (src/index.ts), including a JSON validity checker modelling
  `JSON.parse` (ECMA-404 grammar);
* the `CallToolRequestSchema` handler of src/index.ts with its zod
  validation (`GeminiQuerySchema`).

JavaScript strings are modelled as `String` / `List Char` (one `Char` per
UTF-16 code unit; all constants involved are ASCII, so this is faithful).
JavaScript's `String.prototype.trim` uses a specific whitespace set, which
is reproduced below as `jsIsWhitespace` rather than Lean's `Char.isWhitespace`.
-/

/-! ## JavaScript string primitives -/

/-- The set of characters removed by JavaScript `String.prototype.trim`:
TAB, LF, VT, FF, CR, SP, NBSP, BOM, and the Unicode space separators. -/
def jsIsWhitespace (c : Char) : Bool :=
  c.toNat == 0x09 || c.toNat == 0x0A || c.toNat == 0x0B || c.toNat == 0x0C ||
  c.toNat == 0x0D || c.toNat == 0x20 || c.toNat == 0xA0 || c.toNat == 0xFEFF ||
  c.toNat == 0x1680 || (0x2000 ≤ c.toNat && c.toNat ≤ 0x200A) ||
  c.toNat == 0x2028 || c.toNat == 0x2029 || c.toNat == 0x202F ||
  c.toNat == 0x205F || c.toNat == 0x3000

/-- JavaScript `trim` on a character list: drop leading and trailing
whitespace. -/
def jsTrim (l : List Char) : List Char :=
  ((l.dropWhile jsIsWhitespace).reverse.dropWhile jsIsWhitespace).reverse

/-- JavaScript `trim` on a `String`. -/
def jsTrimS (s : String) : String :=
  String.mk (jsTrim s.data)

/-- JavaScript `a || b` for strings: `b` when `a` is empty (falsy), else `a`. -/
def jsOrStr (a b : String) : String :=
  if a = "" then b else a

/-- JavaScript `a || b` where `a` is a possibly-`null` number (as delivered to
the `close` handler): `null` and `0` are falsy. -/
def jsOrInt (a : Option Int) (b : Int) : Int :=
  match a with
  | none => b
  | some v => if v = 0 then b else v

/-- JavaScript template interpolation of a possibly-`null` number. -/
def optIntStr (a : Option Int) : String :=
  match a with
  | none => "null"
  | some v => toString v

/-! ## Data model: `GeminiCliResult` (src/types.ts) -/

/-- `GeminiCliResult` from src/types.ts:
`{ success: boolean; output: string; error?: string; exitCode?: number }`. -/
structure GeminiCliResult where
  success : Bool
  output : String
  error : Option String := none
  exitCode : Option Int := none
deriving DecidableEq, Repr

/-! ## Subprocess supervisor (`executeGeminiCommand`, src/gemini-cli.ts)

The `Promise` body of `executeGeminiCommand` installs five event handlers:
`stdout.on('data')`, `stderr.on('data')`, `child.on('close')`,
`child.on('error')`, and a `setTimeout` callback.  Node's event loop
delivers these sequentially; we model one invocation as a fold of the
delivered events over an explicit state carrying the `isResolved` flag,
the accumulation buffers, whether `child.kill` was issued, and the value
passed to `resolve` (if any). -/

/-- `COMMAND_TIMEOUT_MS = 10000` from src/gemini-cli.ts. -/
def COMMAND_TIMEOUT_MS : Nat := 10000

/-- The message built by the timeout handler and by the `ETIMEDOUT` branch:
backtick-template on `COMMAND_TIMEOUT_MS / 1000`. -/
def timeoutMessage : String :=
  "Command timed out after " ++ toString (COMMAND_TIMEOUT_MS / 1000) ++ " seconds"

/-- One event deliverable to the supervisor's handlers.  `close` carries the
exit code (`null` when the child was killed by a signal); `error` carries the
spawn error's `code` property (e.g. `'ENOENT'`) and its `message`. -/
inductive ProcEvent where
  | stdoutData (d : String)
  | stderrData (d : String)
  | close (code : Option Int)
  | error (errCode : Option String) (msg : String)
  | timeout
deriving DecidableEq, Repr

/-- Whether an event's handler resolves the promise (every branch of the
`close`, `error` and timeout handlers resolves; `data` handlers never do). -/
def isResolving : ProcEvent → Bool
  | .stdoutData _ => false
  | .stderrData _ => false
  | _ => true

/-- State of one `executeGeminiCommand` invocation between event deliveries. -/
structure SupState where
  isResolved : Bool
  stdoutBuf : String
  stderrBuf : String
  killed : Bool
  result : Option GeminiCliResult
deriving DecidableEq, Repr

/-- State right after `spawn` returns: nothing resolved, empty buffers. -/
def initSup : SupState :=
  { isResolved := false
    stdoutBuf := ""
    stderrBuf := ""
    killed := false
    result := none }

/-- The value `resolve`d by the `close` handler (src/gemini-cli.ts lines
86-115), given the buffers accumulated so far and the exit code. -/
def closeResult (stdoutBuf stderrBuf : String) (code : Option Int) : GeminiCliResult :=
  if code = some 0 then
    let output := jsTrimS stdoutBuf
    if output ≠ "" then
      { success := true, output := output }
    else
      { success := false
        output := ""
        error := some "Gemini CLI returned empty response"
        exitCode := some (jsOrInt code 0) }
  else
    { success := false
      output := jsTrimS stdoutBuf
      error := some (jsOrStr (jsTrimS stderrBuf)
        ("Command failed with exit code " ++ optIntStr code))
      exitCode := some (jsOrInt code 1) }

/-- The message chosen by the `error` handler (src/gemini-cli.ts lines
117-139) from the spawn error's `code` property. -/
def spawnErrorMessage (errCode : Option String) (msg : String) : String :=
  if errCode = some "ENOENT" then
    "Gemini CLI not found. Please ensure it is installed and in your PATH."
  else if errCode = some "ETIMEDOUT" then
    timeoutMessage
  else
    "Command execution error: " ++ msg

/-- One event delivery: the five handlers of `executeGeminiCommand`.
`data` handlers append unconditionally; the three resolving handlers are
guarded by `if (!isResolved)` and set `isResolved = true` before resolving.
The timeout handler additionally issues `child.kill('SIGKILL')`. -/
def step (s : SupState) (e : ProcEvent) : SupState :=
  match e with
  | .stdoutData d => { s with stdoutBuf := s.stdoutBuf ++ d }
  | .stderrData d => { s with stderrBuf := s.stderrBuf ++ d }
  | .timeout =>
    if s.isResolved then s
    else
      { s with
        isResolved := true
        killed := true
        result := some
          { success := false
            output := ""
            error := some timeoutMessage
            exitCode := some 124 } }
  | .close code =>
    if s.isResolved then s
    else
      { s with
        isResolved := true
        result := some (closeResult s.stdoutBuf s.stderrBuf code) }
  | .error errCode msg =>
    if s.isResolved then s
    else
      { s with
        isResolved := true
        result := some
          { success := false
            output := ""
            error := some (spawnErrorMessage errCode msg)
            exitCode := some 1 } }

/-- One supervisor invocation: fold the delivered events over the initial
state. -/
def runSupervisor (events : List ProcEvent) : SupState :=
  events.foldl step initSup

/-- The stdout accumulated by the `data` handlers over an event list,
starting from buffer `acc` (mirrors `stdout += data.toString()`). -/
def collectStdoutFrom (acc : String) : List ProcEvent → String
  | [] => acc
  | .stdoutData d :: es => collectStdoutFrom (acc ++ d) es
  | _ :: es => collectStdoutFrom acc es

/-- The stderr accumulated by the `data` handlers over an event list. -/
def collectStderrFrom (acc : String) : List ProcEvent → String
  | [] => acc
  | .stderrData d :: es => collectStderrFrom (acc ++ d) es
  | _ :: es => collectStderrFrom acc es

/-! ## `sanitizePrompt` (src/gemini-cli.ts lines 144-150) -/

/-- The character class of the second `replace` in `sanitizePrompt`:
`[\x00-\x08\x0B\x0C\x0E-\x1F\x7F]`. -/
def isStrippedControl (c : Char) : Bool :=
  c.toNat ≤ 0x08 || c.toNat == 0x0B || c.toNat == 0x0C ||
  (0x0E ≤ c.toNat && c.toNat ≤ 0x1F) || c.toNat == 0x7F

/-- `sanitizePrompt`: delete null bytes (`replace(/\0/g, '')`), delete the
control-character class (`replace(/[\x00-\x08\x0B\x0C\x0E-\x1F\x7F]/g, '')`),
then `trim()`. -/
def sanitizePrompt (l : List Char) : List Char :=
  jsTrim ((l.filter (fun c => !(c.toNat == 0))).filter (fun c => !(isStrippedControl c)))

/-- `sanitizePrompt` on a `String`. -/
def sanitizePromptS (s : String) : String :=
  String.mk (sanitizePrompt s.data)

/-! ## `simulateGeminiResponse` (src/gemini-cli.ts lines 152-173)

The simulated network delay (`setTimeout`) has no observable effect on the
returned value and is not modelled. -/

/-- JavaScript `String.prototype.includes` on character lists. -/
def jsIncludes (hay needle : List Char) : Bool :=
  match hay with
  | [] => needle.isEmpty
  | c :: t => needle.isPrefixOf (c :: t) || jsIncludes t needle

/-- `includes` on `String`s. -/
def jsIncludesS (hay needle : String) : Bool :=
  jsIncludes hay.data needle.data

/-- JavaScript `s.substring(0, n)`. -/
def jsSubstringTo (s : String) (n : Nat) : String :=
  String.mk (s.data.take n)

/-- `simulateGeminiResponse`: canned responses keyed on substring checks of
the lowercased prompt.  (`toLowerCase` is modelled by ASCII lowering; every
probed substring is ASCII.)  The `model ? ... : ''` template is a truthiness
test, so an empty-string model also yields no suffix. -/
def simulateGeminiResponse (prompt : String) (model : Option String) : GeminiCliResult :=
  let lower := prompt.toLower
  let response :=
    if jsIncludesS lower "2+2" || jsIncludesS lower "2 + 2" then
      "2 + 2 = 4"
    else if jsIncludesS lower "hello" then
      "Hello! How can I help you today?"
    else if jsIncludesS lower "test" then
      "This is a test response from the MCP server. You asked: \"" ++
        jsSubstringTo prompt 50 ++ (if 50 < prompt.length then "..." else "") ++ "\""
    else
      "I received your prompt: \"" ++ jsSubstringTo prompt 30 ++
        (if 30 < prompt.length then "..." else "") ++ "\"" ++
        (match model with
         | some m => if m = "" then "" else " (using model: " ++ m ++ ")"
         | none => "") ++
        ". This is a simulated response since Gemini CLI is in test mode."
  { success := true, output := response }

/-! ## Pre-spawn phase of `executeGeminiCommand` (src/gemini-cli.ts lines 29-59)

Before installing the event handlers, `executeGeminiCommand` short-circuits
to the simulator in test mode, and otherwise validates the prompt (throwing)
and builds the `spawn` invocation.  We model this phase as a function from
the `GEMINI_TEST_MODE` flag and the arguments to either a thrown error
message or the action taken. -/

/-- What `executeGeminiCommand` does before any event is delivered. -/
inductive ExecAction where
  | simulated (r : GeminiCliResult)
  | spawn (cmd : String) (args : List String)
deriving DecidableEq, Repr

/-- JavaScript `a || b` where `a` is a possibly-`undefined` string. -/
def jsOrStrOpt (a : Option String) (b : String) : String :=
  match a with
  | none => b
  | some s => if s = "" then b else s

/-- The test-mode short-circuit, validation throws, and argument-vector
construction of `executeGeminiCommand`.  For a string argument, JavaScript's
`!prompt` guard fires exactly on the empty string. -/
def executeGeminiCommandPre (testMode : Bool) (prompt : String) (model : Option String) :
    Except String ExecAction :=
  if testMode then
    .ok (.simulated (simulateGeminiResponse prompt model))
  else if prompt = "" then
    .error "Prompt is required and must be a string"
  else if jsTrimS prompt = "" then
    .error "Prompt cannot be empty"
  else if 10000 < prompt.length then
    .error "Prompt is too long (max 10000 characters)"
  else
    .ok (.spawn "gemini" ["-m", jsOrStrOpt model "gemini-2.5-flash", "-p", prompt])

/-! ## JSON validity (`JSON.parse` success, ECMA-404 grammar)

`setupJsonValidation` only uses `JSON.parse` to decide whether a line is
well-formed, so we model it as a recognizer for the JSON grammar.  Each
function returns the unconsumed remainder on success.  The mutually
recursive part is fuelled; every recursive call consumes input, so the fuel
chosen in `jsonValid` is always sufficient. -/

/-- JSON digit. -/
def isJsonDigit (c : Char) : Bool := '0' ≤ c && c ≤ '9'

/-- JSON hex digit (for `\u` escapes). -/
def isJsonHexDigit (c : Char) : Bool :=
  isJsonDigit c || ('a' ≤ c && c ≤ 'f') || ('A' ≤ c && c ≤ 'F')

/-- JSON insignificant whitespace: space, tab, LF, CR. -/
def skipJsonWs (l : List Char) : List Char :=
  l.dropWhile (fun c => c == ' ' || c == '\t' || c == '\n' || c == '\r')

/-- Require a literal character sequence (for `true` / `false` / `null`). -/
def dropLit (lit : List Char) (l : List Char) : Option (List Char) :=
  if lit.isPrefixOf l then some (l.drop lit.length) else none

/-- Consume the body of a JSON string after the opening quote, including the
closing quote.  Unescaped control characters below U+0020 are rejected;
escapes are the eight single-character ones plus `\uXXXX`. -/
def parseStringBody : Nat → List Char → Option (List Char)
  | 0, _ => none
  | _ + 1, [] => none
  | fuel + 1, c :: rest =>
    if c == '"' then some rest
    else if c == '\\' then
      match rest with
      | [] => none
      | e :: rest2 =>
        if e == '"' || e == '\\' || e == '/' || e == 'b' || e == 'f' ||
           e == 'n' || e == 'r' || e == 't' then
          parseStringBody fuel rest2
        else if e == 'u' then
          match rest2 with
          | h1 :: h2 :: h3 :: h4 :: rest3 =>
            if isJsonHexDigit h1 && isJsonHexDigit h2 &&
               isJsonHexDigit h3 && isJsonHexDigit h4 then
              parseStringBody fuel rest3
            else none
          | _ => none
        else none
    else if c.toNat < 0x20 then none
    else parseStringBody fuel rest

/-- Drop a run of digits. -/
def dropDigits (l : List Char) : List Char := l.dropWhile isJsonDigit

/-- JSON integer part: `0` or a nonzero digit followed by digits. -/
def parseIntPart (l : List Char) : Option (List Char) :=
  match l with
  | '0' :: t => some t
  | c :: t => if '1' ≤ c && c ≤ '9' then some (dropDigits t) else none
  | [] => none

/-- JSON optional fraction part: `.` followed by one or more digits. -/
def parseFracPart (l : List Char) : Option (List Char) :=
  match l with
  | '.' :: t =>
    match t with
    | c :: _ => if isJsonDigit c then some (dropDigits t) else none
    | [] => none
  | _ => some l

/-- JSON optional exponent part: `e`/`E`, optional sign, one or more digits. -/
def parseExpPart (l : List Char) : Option (List Char) :=
  match l with
  | c :: t =>
    if c == 'e' || c == 'E' then
      let t2 := match t with
        | s :: u => if s == '+' || s == '-' then u else s :: u
        | [] => []
      match t2 with
      | d :: _ => if isJsonDigit d then some (dropDigits t2) else none
      | [] => none
    else some l
  | [] => some l

/-- JSON number: optional minus, integer part, optional fraction, optional
exponent. -/
def parseNumber (l : List Char) : Option (List Char) := do
  let l1 := match l with | '-' :: t => t | _ => l
  let l2 ← parseIntPart l1
  let l3 ← parseFracPart l2
  parseExpPart l3

mutual

/-- JSON value: object, array, string, number, or literal. -/
def parseValue : Nat → List Char → Option (List Char)
  | 0, _ => none
  | fuel + 1, l =>
    match l with
    | [] => none
    | c :: rest =>
      if c == '"' then parseStringBody (rest.length + 1) rest
      else if c == '\x7b' then
        match skipJsonWs rest with
        | '\x7d' :: r2 => some r2
        | r => parseMembers fuel r
      else if c == '[' then
        match skipJsonWs rest with
        | ']' :: r2 => some r2
        | r => parseElements fuel r
      else if c == 't' then dropLit ['r', 'u', 'e'] rest
      else if c == 'f' then dropLit ['a', 'l', 's', 'e'] rest
      else if c == 'n' then dropLit ['u', 'l', 'l'] rest
      else parseNumber (c :: rest)

/-- One or more object members followed by the closing brace. -/
def parseMembers : Nat → List Char → Option (List Char)
  | 0, _ => none
  | fuel + 1, l =>
    match skipJsonWs l with
    | '"' :: rest =>
      match parseStringBody (rest.length + 1) rest with
      | none => none
      | some r1 =>
        match skipJsonWs r1 with
        | ':' :: r2 =>
          match parseElem fuel r2 with
          | none => none
          | some r3 =>
            match r3 with
            | ',' :: r4 => parseMembers fuel r4
            | '\x7d' :: r4 => some r4
            | _ => none
        | _ => none
    | _ => none

/-- One or more array elements followed by the closing bracket. -/
def parseElements : Nat → List Char → Option (List Char)
  | 0, _ => none
  | fuel + 1, l =>
    match parseElem fuel l with
    | none => none
    | some r =>
      match r with
      | ',' :: r2 => parseElements fuel r2
      | ']' :: r2 => some r2
      | _ => none

/-- JSON element: whitespace, value, whitespace. -/
def parseElem : Nat → List Char → Option (List Char)
  | 0, _ => none
  | fuel + 1, l =>
    match parseValue fuel (skipJsonWs l) with
    | none => none
    | some r => some (skipJsonWs r)

end

/-- Whether `JSON.parse` accepts the text: the element grammar consumes the
entire input. -/
def jsonValid (l : List Char) : Bool :=
  match parseElem (4 * l.length + 8) l with
  | some [] => true
  | _ => false

/-! ## Line framer (`setupJsonValidation`, src/index.ts lines 154-221)

The stdin `data` handler appends the chunk to a persistent buffer, splits on
`'\n'`, keeps the final segment as the new buffer, and for each complete
line: skips it if it trims to nothing; forwards `trimmed + '\n'` to the
original listeners if `JSON.parse` accepts it; otherwise writes a JSON-RPC
error envelope with code `-32700`, `id: null`, and
`data.received = trimmed.substring(0, 100) + (trimmed.length > 100 ? '...' : '')`.
(The envelope's `data.details` text comes from the engine-specific
`JSON.parse` error message and is not modelled; the envelope's fixed fields
are.)  Chunks are modelled at the decoded code-unit level. -/

/-- One observable emission of the framer for one line. -/
inductive FrameOut where
  | forwarded (data : List Char)
  | parseError (code : Int) (idNull : Bool) (received : List Char)
deriving DecidableEq, Repr

/-- The capped excerpt placed in `data.received`. -/
def receivedExcerpt (trimmed : List Char) : List Char :=
  trimmed.take 100 ++ (if 100 < trimmed.length then ['.', '.', '.'] else [])

/-- The body of the per-line loop of the `data` handler. -/
def processLine (line : List Char) : List FrameOut :=
  let trimmed := jsTrim line
  if trimmed = [] then []
  else if jsonValid trimmed then [.forwarded (trimmed ++ ['\n'])]
  else [.parseError (-32700) true (receivedExcerpt trimmed)]

/-- JavaScript `s.split('\n')`: all segments, empty ones included; never
returns the empty list. -/
def splitLines : List Char → List (List Char)
  | [] => [[]]
  | c :: cs =>
    if c = '\n' then [] :: splitLines cs
    else (c :: (splitLines cs).headD []) :: (splitLines cs).tail

/-- One `data` event: split `buffer ++ chunk`, keep the last segment
(`lines.pop() || ''`) as the new buffer, process every complete line in
order. -/
def feed (buffer chunk : List Char) : List Char × List FrameOut :=
  let parts := splitLines (buffer ++ chunk)
  (parts.getLastD [], parts.dropLast.flatMap processLine)

/-- A sequence of `data` events against the persistent buffer, collecting
all emissions in order. -/
def feedAll (buffer : List Char) (chunks : List (List Char)) :
    List Char × List FrameOut :=
  chunks.foldl (fun acc c =>
    ((feed acc.1 c).1, acc.2 ++ (feed acc.1 c).2)) (buffer, [])

/-! ## `CallToolRequestSchema` handler (src/index.ts lines 72-133)

The handler rejects unknown tool names with `MethodNotFound`, validates the
arguments against `GeminiQuerySchema` (zod reports a violation as
`"<path>: <message>"`, and at most one issue can arise for this schema),
sanitizes the prompt, and calls `executeGeminiCommand`.  A rejection of that
call lands in the generic catch; a returned failure result is mapped to an
`InternalError` protocol error.  The subprocess behavior itself is the
`exec` oracle parameter; the second component of the result records the
invocations made of it. -/

/-- The MCP error codes used by the handler. -/
inductive ErrorCode where
  | MethodNotFound
  | InvalidParams
  | InternalError
deriving DecidableEq, Repr

/-- Arguments of a tool call, as received (either field may be absent). -/
structure CallArgs where
  prompt : Option String
  model : Option String
deriving DecidableEq, Repr

/-- A request accepted by `GeminiQuerySchema`. -/
structure GeminiQueryRequest where
  prompt : String
  model : Option String
deriving DecidableEq, Repr

/-- What the handler returns to the MCP layer: a text content payload or a
thrown `McpError`. -/
inductive HandlerResult where
  | success (text : String)
  | error (code : ErrorCode) (message : String)
deriving DecidableEq, Repr

/-- `GeminiQuerySchema.parse`: `prompt` required, `.min(1, 'Prompt cannot be
empty')`, `.max(10000, 'Prompt too long')`; `model` optional. -/
def zodParseQuery (args : CallArgs) : Except String GeminiQueryRequest :=
  match args.prompt with
  | none => .error "prompt: Required"
  | some p =>
    if p.length < 1 then .error "prompt: Prompt cannot be empty"
    else if 10000 < p.length then .error "prompt: Prompt too long"
    else .ok { prompt := p, model := args.model }

/-- The `CallToolRequestSchema` handler.  Returns the protocol-level result
together with the list of `executeGeminiCommand` invocations performed. -/
def handleCallTool (name : String) (args : CallArgs)
    (exec : String → Option String → Except String GeminiCliResult) :
    HandlerResult × List (String × Option String) :=
  if name ≠ "gemini_query" then
    (.error .MethodNotFound ("Unknown tool: " ++ name), [])
  else
    match zodParseQuery args with
    | .error msg => (.error .InvalidParams ("Invalid parameters: " ++ msg), [])
    | .ok req =>
      let sp := sanitizePromptS req.prompt
      match exec sp req.model with
      | .error emsg =>
        (.error .InternalError ("Failed to execute Gemini query: " ++ emsg),
         [(sp, req.model)])
      | .ok r =>
        if r.success then
          (.success r.output, [(sp, req.model)])
        else
          (.error .InternalError
            ("Gemini CLI error: " ++ jsOrStr (r.error.getD "") "Unknown error"),
           [(sp, req.model)])

/-- The result-shape invariant claimed for every value `executeGeminiCommand`
resolves with: success carries non-empty output and no error; failure
carries a non-empty error message. -/
def resultInvariant (r : GeminiCliResult) : Bool :=
  if r.success then decide (r.output ≠ "") && r.error.isNone
  else
    match r.error with
    | some e => decide (e ≠ "")
    | none => false

/-- Join lines with `'\n'` separators (specification-side helper: the chunk
`joinWithNL ls ++ ['\n']` consists of exactly the lines `ls`, each
newline-terminated). -/
def joinWithNL : List (List Char) → List Char
  | [] => []
  | [x] => x
  | x :: y :: t => x ++ '\n' :: joinWithNL (y :: t)

/-! ### Supervisor lemmas -/

/-- Once resolved, a single further event changes neither the resolved flag
nor the stored result. -/
theorem step_of_resolved (s : SupState) (e : ProcEvent) (h : s.isResolved = true) :
    (step s e).result = s.result ∧ (step s e).isResolved = true := by
  cases e <;> simp [step, h]

/-- Once resolved, any further event list changes neither the resolved flag
nor the stored result. -/
theorem foldl_of_resolved (es : List ProcEvent) (s : SupState)
    (h : s.isResolved = true) :
    (es.foldl step s).result = s.result ∧ (es.foldl step s).isResolved = true := by
  induction es generalizing s with
  | nil => exact ⟨rfl, h⟩
  | cons e es ih =>
    have h1 := step_of_resolved s e h
    rw [List.foldl_cons]
    rcases ih (step s e) h1.2 with ⟨hr, hf⟩
    exact ⟨hr.trans h1.1, hf⟩

/-- The resolved flag and the presence of a result move together. -/
theorem step_resolved_iff_some (s : SupState) (e : ProcEvent)
    (h : s.isResolved = s.result.isSome) :
    (step s e).isResolved = ((step s e).result).isSome := by
  cases e <;> simp [step, h] <;>
    by_cases hr : s.isResolved = true <;> simp_all

/-- In every reachable state, the resolved flag holds iff a result is stored. -/
theorem run_resolved_iff_some (events : List ProcEvent) :
    (runSupervisor events).isResolved = ((runSupervisor events).result).isSome := by
  suffices h : ∀ s : SupState, s.isResolved = s.result.isSome →
      (events.foldl step s).isResolved = ((events.foldl step s).result).isSome by
    exact h initSup (by simp [initSup])
  induction events with
  | nil => intro s hs; exact hs
  | cons e es ih =>
    intro s hs
    rw [List.foldl_cons]
    exact ih (step s e) (step_resolved_iff_some s e hs)

/-- Delivering only non-resolving (`data`) events from an unresolved state
just extends the accumulation buffers. -/
theorem foldl_data_only (es : List ProcEvent)
    (h : ∀ e ∈ es, isResolving e = false) (s : SupState) :
    es.foldl step s =
      { s with
        stdoutBuf := collectStdoutFrom s.stdoutBuf es
        stderrBuf := collectStderrFrom s.stderrBuf es } := by
  induction es generalizing s with
  | nil => simp [collectStdoutFrom, collectStderrFrom]
  | cons e es ih =>
    have he : isResolving e = false := h e (List.mem_cons_self e es)
    have hes : ∀ x ∈ es, isResolving x = false :=
      fun x hx => h x (List.mem_cons_of_mem e hx)
    cases e with
    | stdoutData d =>
      rw [List.foldl_cons, ih hes]
      simp [step, collectStdoutFrom, collectStderrFrom]
    | stderrData d =>
      rw [List.foldl_cons, ih hes]
      simp [step, collectStdoutFrom, collectStderrFrom]
    | close code => simp [isResolving] at he
    | error c m => simp [isResolving] at he
    | timeout => simp [isResolving] at he

/-- An unresolved state is resolved, with a stored result, by any resolving
event. -/
theorem step_resolving (s : SupState) (e : ProcEvent) (hs : s.isResolved = false)
    (he : isResolving e = true) :
    (step s e).isResolved = true ∧ (step s e).result.isSome = true := by
  cases e with
  | stdoutData d => simp [isResolving] at he
  | stderrData d => simp [isResolving] at he
  | close code => simp [step, hs]
  | error c m => simp [step, hs]
  | timeout => simp [step, hs]

/-- A non-empty string stays non-empty after appending on the right. -/
theorem append_ne_empty_left (a b : String) (h : a ≠ "") : a ++ b ≠ "" := by
  intro hab
  apply h
  have hd : a.data ++ b.data = [] := congrArg String.data hab
  rcases List.append_eq_nil.mp hd with ⟨ha, _⟩
  cases a
  simp_all

/-- JavaScript `a || b` on strings is non-empty when `b` is. -/
theorem jsOrStr_ne_empty (a b : String) (hb : b ≠ "") : jsOrStr a b ≠ "" := by
  unfold jsOrStr
  split
  · exact hb
  · assumption

/-! ### Claim C1 -/

/-- C1: per invocation of the supervisor, exactly one outcome is produced:
after any run of non-resolving (`data`) events, the first resolving event
(close, spawn error, or timer fire) stores an outcome, and every event
delivered afterwards — late close, late error, late timer fire, late data —
leaves the stored outcome unchanged. -/
theorem supervisor_exactly_one_outcome (pre post : List ProcEvent) (e : ProcEvent)
    (hpre : ∀ x ∈ pre, isResolving x = false) (he : isResolving e = true) :
    (runSupervisor (pre ++ [e])).result.isSome = true ∧
    (runSupervisor (pre ++ [e] ++ post)).result = (runSupervisor (pre ++ [e])).result := by
  have h0 : (pre.foldl step initSup).isResolved = false := by
    rw [foldl_data_only pre hpre initSup]
    rfl
  have h1 : runSupervisor (pre ++ [e]) = step (pre.foldl step initSup) e := by
    unfold runSupervisor
    rw [List.foldl_append]
    rfl
  have h2 := step_resolving _ e h0 he
  refine ⟨by rw [h1]; exact h2.2, ?_⟩
  have h3 : (runSupervisor (pre ++ [e])).isResolved = true := by
    rw [h1]; exact h2.1
  show ((pre ++ [e] ++ post).foldl step initSup).result = _
  rw [List.foldl_append]
  exact (foldl_of_resolved post ((pre ++ [e]).foldl step initSup) h3).1

/-- Witness for C1: one stdout chunk, then `close 0`; a late timer fire and
a late error are no-ops. -/
theorem supervisor_exactly_one_outcome_witness :
    (∀ x ∈ [ProcEvent.stdoutData "hi"], isResolving x = false) ∧
    isResolving (ProcEvent.close (some 0)) = true ∧
    ((runSupervisor ([ProcEvent.stdoutData "hi"] ++ [ProcEvent.close (some 0)])).result.isSome = true ∧
     (runSupervisor ([ProcEvent.stdoutData "hi"] ++ [ProcEvent.close (some 0)] ++
        [ProcEvent.timeout, ProcEvent.error (some "ENOENT") "late"])).result =
       (runSupervisor ([ProcEvent.stdoutData "hi"] ++ [ProcEvent.close (some 0)])).result) :=
  ⟨by decide, by decide,
   supervisor_exactly_one_outcome [ProcEvent.stdoutData "hi"]
     [ProcEvent.timeout, ProcEvent.error (some "ENOENT") "late"]
     (ProcEvent.close (some 0)) (by decide) (by decide)⟩

/-! ### Claim C2 -/

/-- C2: a process that exits with code 0 has its collected stdout trimmed;
non-empty trimmed output resolves to success with that output, while empty
(including whitespace-only) trimmed output resolves to failure with the
empty-response message — never to success. -/
theorem exit_zero_classification (ds : List ProcEvent)
    (h : ∀ x ∈ ds, isResolving x = false) :
    (runSupervisor (ds ++ [ProcEvent.close (some 0)])).result =
      some (if jsTrimS (collectStdoutFrom "" ds) = "" then
              { success := false
                output := ""
                error := some "Gemini CLI returned empty response"
                exitCode := some 0 }
            else { success := true, output := jsTrimS (collectStdoutFrom "" ds) }) := by
  unfold runSupervisor
  rw [List.foldl_append, foldl_data_only ds h initSup]
  simp only [List.foldl_cons, List.foldl_nil, initSup]
  simp only [step, closeResult]
  by_cases hc : jsTrimS (collectStdoutFrom "" ds) = "" <;>
    simp [hc, jsOrInt]

/-- Witness for C2: whitespace-only stdout under exit code 0 is classified
as a failure with the empty-response message. -/
theorem exit_zero_classification_witness :
    (∀ x ∈ [ProcEvent.stdoutData "  "], isResolving x = false) ∧
    (runSupervisor ([ProcEvent.stdoutData "  "] ++ [ProcEvent.close (some 0)])).result =
      some (if jsTrimS (collectStdoutFrom "" [ProcEvent.stdoutData "  "]) = "" then
              { success := false
                output := ""
                error := some "Gemini CLI returned empty response"
                exitCode := some 0 }
            else { success := true,
                   output := jsTrimS (collectStdoutFrom "" [ProcEvent.stdoutData "  "]) }) :=
  ⟨by decide, exit_zero_classification [ProcEvent.stdoutData "  "] (by decide)⟩

/-! ### Claim C3 -/

/-- C3: if the timer fires before any close or error, the supervisor kills
the process and resolves to failure with exit code 124 and a message naming
the 10-second timeout bound. -/
theorem timeout_classification (ds : List ProcEvent)
    (h : ∀ x ∈ ds, isResolving x = false) :
    (runSupervisor (ds ++ [ProcEvent.timeout])).killed = true ∧
    (runSupervisor (ds ++ [ProcEvent.timeout])).result =
      some { success := false
             output := ""
             error := some timeoutMessage
             exitCode := some 124 } ∧
    timeoutMessage = "Command timed out after " ++
      toString (COMMAND_TIMEOUT_MS / 1000) ++ " seconds" ∧
    timeoutMessage = "Command timed out after 10 seconds" := by
  unfold runSupervisor
  rw [List.foldl_append, foldl_data_only ds h initSup]
  simp only [List.foldl_cons, List.foldl_nil, initSup]
  exact ⟨by simp [step], by simp [step], rfl, rfl⟩

/-- Witness for C3: stdout arrives, then the timer fires first. -/
theorem timeout_classification_witness :
    (∀ x ∈ [ProcEvent.stdoutData "partial"], isResolving x = false) ∧
    ((runSupervisor ([ProcEvent.stdoutData "partial"] ++ [ProcEvent.timeout])).killed = true ∧
     (runSupervisor ([ProcEvent.stdoutData "partial"] ++ [ProcEvent.timeout])).result =
       some { success := false
              output := ""
              error := some timeoutMessage
              exitCode := some 124 }) :=
  ⟨by decide,
   ⟨(timeout_classification [ProcEvent.stdoutData "partial"] (by decide)).1,
    (timeout_classification [ProcEvent.stdoutData "partial"] (by decide)).2.1⟩⟩

/-! ### Claim C9 -/

/-- The close handler always resolves with a value satisfying the result
invariant. -/
theorem closeResult_invariant (o e : String) (c : Option Int) :
    resultInvariant (closeResult o e c) = true := by
  unfold closeResult
  by_cases h0 : c = some 0
  · by_cases hne : jsTrimS o ≠ ""
    · simp [h0, hne, resultInvariant]
    · simp [h0, hne, resultInvariant]
  · have : jsOrStr (jsTrimS e) ("Command failed with exit code " ++ optIntStr c) ≠ "" := by
      apply jsOrStr_ne_empty
      apply append_ne_empty_left
      decide
    simp [h0, resultInvariant, this]

/-- The spawn-error message is never empty. -/
theorem spawnErrorMessage_ne_empty (ec : Option String) (m : String) :
    spawnErrorMessage ec m ≠ "" := by
  unfold spawnErrorMessage
  split
  · decide
  · split
    · decide
    · exact append_ne_empty_left _ _ (by decide)

/-- The simulator always reports success with a non-empty canned response. -/
theorem simulateGeminiResponse_invariant (p : String) (m : Option String) :
    (simulateGeminiResponse p m).success = true ∧
    (simulateGeminiResponse p m).output ≠ "" := by
  unfold simulateGeminiResponse
  refine ⟨rfl, ?_⟩
  simp only
  split
  · decide
  · split
    · decide
    · split
      · exact append_ne_empty_left _ _ (append_ne_empty_left _ _
          (append_ne_empty_left _ _ (by decide)))
      · exact append_ne_empty_left _ _ (append_ne_empty_left _ _
          (append_ne_empty_left _ _ (append_ne_empty_left _ _
            (append_ne_empty_left _ _ (by decide)))))

/-- Every stored result in a reachable supervisor state satisfies the
invariant. -/
theorem run_result_invariant (events : List ProcEvent) (r : GeminiCliResult)
    (h : (runSupervisor events).result = some r) : resultInvariant r = true := by
  unfold runSupervisor at h
  suffices hgen : ∀ s : SupState,
      (∀ r0 : GeminiCliResult, s.result = some r0 → resultInvariant r0 = true) →
      ∀ r0 : GeminiCliResult, (events.foldl step s).result = some r0 →
        resultInvariant r0 = true by
    exact hgen initSup (by intro r0 h0; simp [initSup] at h0) r h
  clear h
  induction events with
  | nil => intro s hs; exact hs
  | cons e es ih =>
    intro s hs
    rw [List.foldl_cons]
    apply ih
    intro r0 h0
    cases e with
    | stdoutData d => exact hs r0 h0
    | stderrData d => exact hs r0 h0
    | close code =>
      by_cases hr : s.isResolved
      · simp [step, hr] at h0; exact hs r0 h0
      · simp [step, hr] at h0
        rw [← h0]
        exact closeResult_invariant _ _ _
    | error c m =>
      by_cases hr : s.isResolved
      · simp [step, hr] at h0; exact hs r0 h0
      · simp [step, hr] at h0
        rw [← h0]
        simp [resultInvariant, spawnErrorMessage_ne_empty c m]
    | timeout =>
      by_cases hr : s.isResolved
      · simp [step, hr] at h0; exact hs r0 h0
      · simp [step, hr] at h0
        rw [← h0]
        simp [resultInvariant]
        decide

/-- C9: every result produced on any resolution path — clean exit, empty
output, non-zero exit, spawn error, timeout — and every simulated-mode
result satisfies: success carries a non-empty output and no error field,
and failure carries a non-empty error message. -/
theorem gemini_result_invariant (events : List ProcEvent) (p : String)
    (m : Option String) (r : GeminiCliResult)
    (h : (runSupervisor events).result = some r) :
    resultInvariant r = true ∧
    resultInvariant (simulateGeminiResponse p m) = true := by
  refine ⟨run_result_invariant events r h, ?_⟩
  rcases simulateGeminiResponse_invariant p m with ⟨hs, ho⟩
  simp [resultInvariant, hs, ho]
  cases hm : (simulateGeminiResponse p m).error with
  | none => simp [Option.isNone]
  | some e =>
    exfalso
    unfold simulateGeminiResponse at hm
    simp at hm

/-- Witness for C9: a non-zero exit with empty stderr yields the generated
exit-code message; the invariant holds for it and for a simulated response. -/
theorem gemini_result_invariant_witness :
    ((runSupervisor [ProcEvent.close (some 1)]).result =
      some { success := false
             output := ""
             error := some "Command failed with exit code 1"
             exitCode := some 1 }) ∧
    (resultInvariant { success := false
                       output := ""
                       error := some "Command failed with exit code 1"
                       exitCode := some 1 } = true ∧
     resultInvariant (simulateGeminiResponse "What is 2+2?" none) = true) :=
  ⟨by decide,
   gemini_result_invariant [ProcEvent.close (some 1)] "What is 2+2?" none _ (by decide)⟩

/-! ### Claim C10 -/

/-- C10: with the test-mode toggle set, `executeGeminiCommand` returns the
simulated response before performing any of its own validation: every
prompt — empty, whitespace-only, or over-long — yields a successful
non-empty simulated result, whereas in real mode those same prompts throw. -/
theorem test_mode_bypasses_validation (prompt : String) (model : Option String) :
    executeGeminiCommandPre true prompt model =
      Except.ok (ExecAction.simulated (simulateGeminiResponse prompt model)) ∧
    (simulateGeminiResponse prompt model).success = true ∧
    (simulateGeminiResponse prompt model).output ≠ "" ∧
    ((prompt = "" ∨ jsTrimS prompt = "" ∨ 10000 < prompt.length) →
      ∃ msg, executeGeminiCommandPre false prompt model = Except.error msg) := by
  rcases simulateGeminiResponse_invariant prompt model with ⟨hs, ho⟩
  refine ⟨rfl, hs, ho, ?_⟩
  intro hbad
  unfold executeGeminiCommandPre
  by_cases h1 : prompt = ""
  · exact ⟨"Prompt is required and must be a string", by simp [h1]⟩
  · by_cases h2 : jsTrimS prompt = ""
    · exact ⟨"Prompt cannot be empty", by simp [h1, h2]⟩
    · have h3 : 10000 < prompt.length := by tauto
      exact ⟨"Prompt is too long (max 10000 characters)", by simp [h1, h2, h3]⟩

/-- Witness for C10: the empty prompt is accepted in test mode and thrown
on in real mode. -/
theorem test_mode_bypasses_validation_witness :
    executeGeminiCommandPre true "" none =
      Except.ok (ExecAction.simulated (simulateGeminiResponse "" none)) ∧
    (simulateGeminiResponse "" none).success = true ∧
    (simulateGeminiResponse "" none).output ≠ "" ∧
    (∃ msg, executeGeminiCommandPre false "" none = Except.error msg) :=
  ⟨(test_mode_bypasses_validation "" none).1,
   (test_mode_bypasses_validation "" none).2.1,
   (test_mode_bypasses_validation "" none).2.2.1,
   (test_mode_bypasses_validation "" none).2.2.2 (Or.inl rfl)⟩

/-! ### Framer lemmas -/

/-- `split` never returns an empty array. -/
theorem splitLines_ne_nil (l : List Char) : splitLines l ≠ [] := by
  cases l with
  | nil => simp [splitLines]
  | cons c cs => by_cases h : c = '\n' <;> simp [splitLines, h]

/-- Splitting after a newline. -/
theorem splitLines_cons_newline (cs : List Char) :
    splitLines ('\n' :: cs) = [] :: splitLines cs := by
  simp [splitLines]

/-- Splitting after a non-newline character. -/
theorem splitLines_cons_other (c : Char) (cs : List Char) (h : c ≠ '\n') :
    splitLines (c :: cs) = (c :: (splitLines cs).headD []) :: (splitLines cs).tail := by
  simp [splitLines, h]

/-- A non-empty list is its default-head consed onto its tail. -/
theorem headD_cons_tail {α : Type} (l : List α) (d : α) (h : l ≠ []) :
    l.headD d :: l.tail = l := by
  cases l with
  | nil => exact absurd rfl h
  | cons a t => rfl

/-- `getLastD` of a non-empty prefixed list ignores the prefix's default. -/
theorem getLastD_append_of_ne_nil {α : Type} (p q : List α) (d : α) (h : q ≠ []) :
    (p ++ q).getLastD d = q.getLastD d := by
  rw [List.getLastD_eq_getLast?, List.getLastD_eq_getLast?,
    List.getLast?_append_of_ne_nil p h]

/-- Prefixing a newline-free segment extends the first split line. -/
theorem splitLines_nl_free_append (x y : List Char) (hx : '\n' ∉ x) :
    splitLines (x ++ y) = (x ++ (splitLines y).headD []) :: (splitLines y).tail := by
  induction x with
  | nil =>
    simp only [List.nil_append]
    exact (headD_cons_tail _ _ (splitLines_ne_nil y)).symm
  | cons c x ih =>
    have hc : c ≠ '\n' := fun h => hx (h ▸ List.mem_cons_self c x)
    have hx2 : '\n' ∉ x := fun h => hx (List.mem_cons_of_mem c h)
    rw [List.cons_append, splitLines_cons_other c _ hc, ih hx2]
    simp

/-- A newline-free list splits into itself alone. -/
theorem splitLines_nl_free (x : List Char) (hx : '\n' ∉ x) : splitLines x = [x] := by
  have h := splitLines_nl_free_append x [] hx
  simpa [splitLines] using h

/-- The pending tail after a split never contains a newline. -/
theorem splitLines_getLastD_nl_free (l : List Char) :
    '\n' ∉ (splitLines l).getLastD [] := by
  induction l with
  | nil => simp [splitLines]
  | cons c cs ih =>
    by_cases h : c = '\n'
    · subst h
      rw [splitLines_cons_newline, List.getLastD_cons]
      cases hs : splitLines cs with
      | nil => exact absurd hs (splitLines_ne_nil cs)
      | cons hd tl =>
        rw [hs] at ih
        rw [List.getLastD_cons] at ih ⊢
        exact ih
    · rw [splitLines_cons_other c cs h]
      cases hs : splitLines cs with
      | nil => exact absurd hs (splitLines_ne_nil cs)
      | cons hd tl =>
        rw [hs] at ih
        cases tl with
        | nil =>
          simp only [List.headD_cons, List.tail_cons, List.getLastD_cons,
            List.getLastD_nil] at ih ⊢
          intro hmem
          rcases List.mem_cons.mp hmem with h1 | h2
          · exact h h1.symm
          · exact ih h2
        | cons b t =>
          simp only [List.headD_cons, List.tail_cons, List.getLastD_cons] at ih ⊢
          exact ih

/-- Splitting distributes over appending: the last segment of the left part
glues onto the first segment of the right part. -/
theorem splitLines_append (x y : List Char) :
    splitLines (x ++ y) =
      (splitLines x).dropLast ++
        (((splitLines x).getLastD [] ++ (splitLines y).headD []) ::
          (splitLines y).tail) := by
  induction x with
  | nil =>
    rw [List.nil_append]
    have h1 : (splitLines ([] : List Char)).dropLast = [] := rfl
    have h2 : (splitLines ([] : List Char)).getLastD [] = [] := rfl
    rw [h1, h2, List.nil_append, List.nil_append]
    exact (headD_cons_tail _ _ (splitLines_ne_nil y)).symm
  | cons c x ih =>
    by_cases hc : c = '\n'
    · subst hc
      rw [List.cons_append, splitLines_cons_newline, splitLines_cons_newline, ih,
        List.dropLast_cons_of_ne_nil (splitLines_ne_nil x), List.getLastD_cons,
        List.cons_append]
    · rw [List.cons_append, splitLines_cons_other c _ hc, splitLines_cons_other c x hc, ih]
      cases hs : splitLines x with
      | nil => exact absurd hs (splitLines_ne_nil x)
      | cons hd tl =>
        cases tl with
        | nil => simp [List.cons_append]
        | cons b t =>
          simp only [List.headD_cons, List.tail_cons, List.getLastD_cons,
            List.dropLast_cons_of_ne_nil (List.cons_ne_nil b t), List.cons_append]

/-- Feeding the concatenation of two chunks leaves the same pending buffer as
feeding them one after the other. -/
theorem feed_append_fst (buf a b : List Char) :
    (feed buf (a ++ b)).1 = (feed (feed buf a).1 b).1 := by
  unfold feed
  simp only
  rw [← List.append_assoc,
    splitLines_append (buf ++ a) b,
    splitLines_nl_free_append _ b (splitLines_getLastD_nl_free (buf ++ a)),
    getLastD_append_of_ne_nil _ _ _ (List.cons_ne_nil _ _)]

/-- Feeding the concatenation of two chunks emits exactly the emissions of
feeding them one after the other, in order. -/
theorem feed_append_snd (buf a b : List Char) :
    (feed buf (a ++ b)).2 = (feed buf a).2 ++ (feed (feed buf a).1 b).2 := by
  unfold feed
  simp only
  rw [← List.append_assoc,
    splitLines_append (buf ++ a) b,
    splitLines_nl_free_append _ b (splitLines_getLastD_nl_free (buf ++ a)),
    List.dropLast_append_of_ne_nil _ (List.cons_ne_nil _ _),
    List.flatMap_append]

/-! ### Claim C4 -/

/-- C4: splitting a logical line across two chunks produces exactly the same
framer output (and pending buffer) as feeding it in one chunk; in particular
the two chunks `{"id":1,"meth` and `od":"x"}\n` produce exactly one
forwarded message carrying the reassembled line for id 1. -/
theorem framer_chunk_split_equiv (buf a b : List Char) :
    feedAll buf [a, b] = feedAll buf [a ++ b] ∧
    (feedAll [] ["\x7b\"id\":1,\"meth".data, "od\":\"x\"\x7d\n".data]).2 =
      [FrameOut.forwarded ("\x7b\"id\":1,\"method\":\"x\"\x7d\n".data)] := by
  refine ⟨?_, by decide⟩
  simp only [feedAll, List.foldl_cons, List.foldl_nil, List.nil_append]
  rw [feed_append_fst buf a b, feed_append_snd buf a b]

/-! ### Claim C5 -/

/-- A chunk of newline-terminated lines splits into exactly those lines plus
an empty pending tail. -/
theorem splitLines_joinWithNL (ls : List (List Char)) (hne : ls ≠ [])
    (h : ∀ l ∈ ls, '\n' ∉ l) :
    splitLines (joinWithNL ls ++ ['\n']) = ls ++ [[]] := by
  induction ls with
  | nil => exact absurd rfl hne
  | cons x rest ih =>
    cases rest with
    | nil =>
      have hx : '\n' ∉ x := h x (List.mem_cons_self x [])
      rw [show joinWithNL [x] = x from rfl,
        splitLines_nl_free_append x ['\n'] hx,
        show splitLines ['\n'] = [[], []] from by decide]
      simp
    | cons y t =>
      have hx : '\n' ∉ x := h x (List.mem_cons_self x (y :: t))
      have hrest : ∀ l ∈ y :: t, '\n' ∉ l :=
        fun l hl => h l (List.mem_cons_of_mem x hl)
      rw [show joinWithNL (x :: y :: t) = x ++ '\n' :: joinWithNL (y :: t) from rfl,
        List.append_assoc, List.cons_append,
        splitLines_nl_free_append x _ hx, splitLines_cons_newline]
      simp only [List.headD_cons, List.tail_cons, List.append_nil]
      rw [ih (List.cons_ne_nil y t) hrest]
      rfl

/-- A line with non-empty trim produces exactly one emission: its forward if
it is valid JSON, else one parse-error envelope. -/
theorem processLine_of_ne (l : List Char) (h : jsTrim l ≠ []) :
    processLine l =
      [if jsonValid (jsTrim l) then FrameOut.forwarded (jsTrim l ++ ['\n'])
       else FrameOut.parseError (-32700) true (receivedExcerpt (jsTrim l))] := by
  unfold processLine
  rw [if_neg h]
  by_cases hv : jsonValid (jsTrim l) <;> simp [hv]

/-- Lines with non-empty trims each contribute exactly their one emission. -/
theorem flatMap_processLine_eq_map (ls : List (List Char))
    (h : ∀ l ∈ ls, jsTrim l ≠ []) :
    ls.flatMap processLine =
      ls.map (fun l =>
        if jsonValid (jsTrim l) then FrameOut.forwarded (jsTrim l ++ ['\n'])
        else FrameOut.parseError (-32700) true (receivedExcerpt (jsTrim l))) := by
  induction ls with
  | nil => rfl
  | cons x rest ih =>
    rw [List.flatMap_cons, List.map_cons,
      processLine_of_ne x (h x (List.mem_cons_self x rest)),
      ih (fun l hl => h l (List.mem_cons_of_mem x hl))]
    rfl

/-- C5: a single chunk holding a mix of malformed and valid complete lines
(each with non-empty trim) emits exactly one output per line, in original
order: the forwarded line for each valid line, and for each malformed line
one error envelope with code `-32700`, `id` null, and the capped excerpt in
`data.received`; a malformed line never suppresses subsequent valid lines. -/
theorem framer_per_line_isolation (ls : List (List Char)) (hne : ls ≠ [])
    (h : ∀ l ∈ ls, '\n' ∉ l ∧ jsTrim l ≠ []) :
    (feedAll [] [joinWithNL ls ++ ['\n']]).2 =
      ls.map (fun l =>
        if jsonValid (jsTrim l) then FrameOut.forwarded (jsTrim l ++ ['\n'])
        else FrameOut.parseError (-32700) true (receivedExcerpt (jsTrim l))) := by
  have hsplit := splitLines_joinWithNL ls hne (fun l hl => (h l hl).1)
  show ([] : List FrameOut) ++ (feed [] (joinWithNL ls ++ ['\n'])).2 = _
  rw [List.nil_append]
  unfold feed
  simp only
  rw [List.nil_append, hsplit, List.dropLast_concat]
  exact flatMap_processLine_eq_map ls (fun l hl => (h l hl).2)

/-- Witness for C5: a valid line, a malformed line, then another valid line
in one chunk. -/
theorem framer_per_line_isolation_witness :
    (feedAll [] [joinWithNL ["\x7b\"a\":1\x7d".data, "oops".data, "[2]".data] ++ ['\n']]).2 =
      [FrameOut.forwarded ("\x7b\"a\":1\x7d\n".data),
       FrameOut.parseError (-32700) true ("oops".data),
       FrameOut.forwarded ("[2]\n".data)] := by
  have h := framer_per_line_isolation
    ["\x7b\"a\":1\x7d".data, "oops".data, "[2]".data]
    (by decide) (by decide)
  rw [h]
  decide

/-! ### Claim C7 -/

/-- The capped excerpt is at most 103 units long, and everything past
position 100 is the fixed truncation marker, never content of the line. -/
theorem receivedExcerpt_spec (t : List Char) :
    (receivedExcerpt t).length ≤ 103 ∧
    ((receivedExcerpt t).drop 100 = [] ∨
     (receivedExcerpt t).drop 100 = ['.', '.', '.']) := by
  unfold receivedExcerpt
  by_cases h : 100 < t.length
  · have hlen : (t.take 100).length = 100 := by
      rw [List.length_take]
      omega
    constructor
    · rw [if_pos h, List.length_append, hlen]
      simp
    · right
      have hdl := List.drop_left (t.take 100) ['.', '.', '.']
      rw [hlen] at hdl
      rw [if_pos h]
      exact hdl
  · constructor
    · rw [if_neg h, List.length_append, List.length_take]
      simp
    · left
      rw [if_neg h, List.append_nil]
      apply List.drop_eq_nil_of_le
      rw [List.length_take]
      omega

/-- C7 (amended): every error envelope the framer emits carries a
`data.received` of at most 103 units — the first at-most-100 units of the
offending line plus, when the line was cut, the fixed 3-unit marker; no
content of the line beyond the cap ever appears. -/
theorem frame_error_excerpt_capped (buffer chunk : List Char) (c : Int) (b : Bool)
    (r : List Char) (h : FrameOut.parseError c b r ∈ (feed buffer chunk).2) :
    r.length ≤ 103 ∧ (r.drop 100 = [] ∨ r.drop 100 = ['.', '.', '.']) := by
  unfold feed at h
  simp only at h
  rcases List.mem_flatMap.mp h with ⟨line, hline, hmem⟩
  unfold processLine at hmem
  by_cases h1 : jsTrim line = []
  · simp [h1] at hmem
  · by_cases h2 : jsonValid (jsTrim line)
    · simp [h1, h2] at hmem
    · simp [h1, h2] at hmem
      rw [hmem.2.2]
      exact receivedExcerpt_spec _

/-- Witness for C7 (amended): a short malformed line's excerpt is the line
itself, within the bound. -/
theorem frame_error_excerpt_capped_witness :
    (FrameOut.parseError (-32700) true ("notjson".data) ∈
      (feed [] ("notjson\n".data)).2) ∧
    (("notjson".data : List Char).length ≤ 103 ∧
     (("notjson".data : List Char).drop 100 = [] ∨
      ("notjson".data : List Char).drop 100 = ['.', '.', '.'])) :=
  ⟨by decide, frame_error_excerpt_capped [] ("notjson\n".data) (-32700) true
    ("notjson".data) (by decide)⟩

/-- Counterexample to C7 as stated: a malformed line of 101 identical
characters produces a `data.received` of 103 units — the 100-unit cap plus
the 3-unit truncation marker — exceeding the stated 100-unit bound. -/
theorem frame_error_excerpt_cap_counterexample :
    (feed [] (List.replicate 101 'x' ++ ['\n'])).2 =
      [FrameOut.parseError (-32700) true
        (List.replicate 100 'x' ++ ['.', '.', '.'])] ∧
    100 < (List.replicate 100 'x' ++ ['.', '.', '.']).length := by
  constructor
  · decide
  · simp

/-! ### Claim C6 -/

/-- Trimming only removes characters. -/
theorem mem_of_mem_jsTrim (m : List Char) (c : Char) (h : c ∈ jsTrim m) : c ∈ m := by
  unfold jsTrim at h
  have h2 := List.mem_reverse.mp h
  have h3 := (List.dropWhile_sublist jsIsWhitespace).mem h2
  have h4 := List.mem_reverse.mp h3
  exact (List.dropWhile_sublist jsIsWhitespace).mem h4

/-- The head surviving `dropWhile` fails the predicate. -/
theorem head?_dropWhile_not (p : Char → Bool) (l : List Char) (c : Char)
    (h : (l.dropWhile p).head? = some c) : p c = false := by
  induction l with
  | nil => simp [List.dropWhile] at h
  | cons a t ih =>
    by_cases hp : p a
    · rw [List.dropWhile_cons_of_pos hp] at h
      exact ih h
    · rw [List.dropWhile_cons_of_neg hp] at h
      simp only [List.head?_cons, Option.some.injEq] at h
      rw [← h]
      exact Bool.of_not_eq_true hp

/-- `dropWhile` keeps the last element of a list it does not empty. -/
theorem getLast?_dropWhile_of_ne_nil (p : Char → Bool) (m : List Char)
    (h : m.dropWhile p ≠ []) : (m.dropWhile p).getLast? = m.getLast? := by
  induction m with
  | nil => simp [List.dropWhile] at h
  | cons a t ih =>
    by_cases hp : p a
    · rw [List.dropWhile_cons_of_pos hp] at h ⊢
      rw [ih h]
      have ht : t ≠ [] := by
        intro h0
        rw [h0] at h
        simp [List.dropWhile] at h
      cases t with
      | nil => exact absurd rfl ht
      | cons b u => rw [List.getLast?_cons_cons]
    · rw [List.dropWhile_cons_of_neg hp]

/-- C6 (amended): `sanitizePrompt` removes every null byte, every C0 control
character other than TAB, LF and CR (i.e. U+0000-U+0008, U+000B, U+000C,
U+000E-U+001F) and DEL (U+007F), then trims surrounding whitespace; C1
characters (U+0080-U+009F) and interior TAB/LF/CR are preserved, so only the
listed class is guaranteed absent, and the result has no leading or trailing
whitespace. -/
theorem sanitize_strips_class_and_trims (l : List Char) :
    (∀ c ∈ sanitizePrompt l,
      ¬(c.toNat ≤ 0x08 ∨ c.toNat = 0x0B ∨ c.toNat = 0x0C ∨
        (0x0E ≤ c.toNat ∧ c.toNat ≤ 0x1F) ∨ c.toNat = 0x7F)) ∧
    (∀ c, (sanitizePrompt l).head? = some c → jsIsWhitespace c = false) ∧
    (∀ c, (sanitizePrompt l).getLast? = some c → jsIsWhitespace c = false) := by
  unfold sanitizePrompt
  refine ⟨?_, ?_, ?_⟩
  · intro c hc hcon
    have h1 := mem_of_mem_jsTrim _ c hc
    have h2 := List.of_mem_filter h1
    simp only [Bool.not_eq_true'] at h2
    simp only [isStrippedControl, Bool.or_eq_false_iff, Bool.and_eq_false_iff,
      decide_eq_false_iff_not, beq_eq_false_iff_ne, ne_eq] at h2
    omega
  · intro c hc
    unfold jsTrim at hc
    rw [List.head?_reverse] at hc
    have hqne :
        (((List.filter (fun c => !isStrippedControl c)
            (List.filter (fun c => !(c.toNat == 0)) l)).dropWhile
              jsIsWhitespace).reverse.dropWhile jsIsWhitespace) ≠ [] := by
      intro h0
      rw [h0] at hc
      simp at hc
    rw [getLast?_dropWhile_of_ne_nil _ _ hqne, List.getLast?_reverse] at hc
    exact head?_dropWhile_not _ _ _ hc
  · intro c hc
    unfold jsTrim at hc
    rw [List.getLast?_reverse] at hc
    exact head?_dropWhile_not _ _ _ hc

/-- Witness for C6 (amended): a C0 control is stripped and the whitespace
trimmed, and the surviving head is not whitespace. -/
theorem sanitize_strips_class_witness :
    jsIsWhitespace 'a' = false ∧
    sanitizePrompt [' ', '\x01', 'a', ' '] = ['a'] :=
  ⟨(sanitize_strips_class_and_trims [' ', '\x01', 'a', ' ']).2.1 'a' (by decide),
   by decide⟩

/-- Counterexample to C6 as stated: an interior TAB (a C0 control) and U+0085
(a C1 control) both survive `sanitizePrompt` unchanged, so the output is not
free of C0/C1 control characters. -/
theorem sanitize_control_counterexample :
    sanitizePrompt ['a', '\t', Char.ofNat 0x85, 'b'] =
      ['a', '\t', Char.ofNat 0x85, 'b'] ∧
    ('\t' ∈ sanitizePrompt ['a', '\t', Char.ofNat 0x85, 'b'] ∧ '\t'.toNat ≤ 0x1F) ∧
    (Char.ofNat 0x85 ∈ sanitizePrompt ['a', '\t', Char.ofNat 0x85, 'b'] ∧
      0x80 ≤ (Char.ofNat 0x85).toNat ∧ (Char.ofNat 0x85).toNat ≤ 0x9F) := by
  refine ⟨by decide, ⟨by decide, by decide⟩, by decide, by decide, by decide⟩

/-! ### Claim C8 -/

/-- C8: a prompt over 10,000 units (and likewise a missing or empty prompt)
is rejected by schema validation with an `InvalidParams` protocol error and
the subprocess oracle is never invoked; `InvalidParams` is distinct from the
`InternalError` code used when an invoked execution reports failure. -/
theorem validation_rejects_before_subprocess (p : String) (m : Option String)
    (exec : String → Option String → Except String GeminiCliResult)
    (h : 10000 < p.length) :
    handleCallTool "gemini_query" { prompt := some p, model := m } exec =
      (HandlerResult.error ErrorCode.InvalidParams
        "Invalid parameters: prompt: Prompt too long", []) ∧
    handleCallTool "gemini_query" { prompt := none, model := m } exec =
      (HandlerResult.error ErrorCode.InvalidParams
        "Invalid parameters: prompt: Required", []) ∧
    handleCallTool "gemini_query" { prompt := some "", model := m } exec =
      (HandlerResult.error ErrorCode.InvalidParams
        "Invalid parameters: prompt: Prompt cannot be empty", []) ∧
    ErrorCode.InvalidParams ≠ ErrorCode.InternalError ∧
    (∀ q r, exec (sanitizePromptS q) m = Except.ok r → r.success = false →
      0 < q.length → q.length ≤ 10000 →
      (handleCallTool "gemini_query" { prompt := some q, model := m } exec).1 =
        HandlerResult.error ErrorCode.InternalError
          ("Gemini CLI error: " ++ jsOrStr (r.error.getD "") "Unknown error")) := by
  refine ⟨?_, ?_, ?_, by decide, ?_⟩
  · unfold handleCallTool zodParseQuery
    have h1 : ¬ p.length < 1 := by omega
    simp [h1, h]
  · unfold handleCallTool zodParseQuery
    simp
  · unfold handleCallTool zodParseQuery
    have h1 : ("" : String).length < 1 := by decide
    simp [h1]
  · intro q r hexec hfail hq1 hq2
    unfold handleCallTool zodParseQuery
    have h1 : ¬ q.length < 1 := by omega
    have h2 : ¬ 10000 < q.length := by omega
    simp [h1, h2, hexec, hfail]

/-- Witness for C8: a 10,001-character prompt is rejected with
`InvalidParams` and no invocation, while a valid prompt whose execution
fails maps to `InternalError`. -/
theorem validation_rejects_before_subprocess_witness :
    (10000 < (String.mk (List.replicate 10001 'a')).length) ∧
    (handleCallTool "gemini_query"
        { prompt := some (String.mk (List.replicate 10001 'a')), model := none }
        (fun _ _ => Except.ok
          { success := false, output := "", error := some "boom", exitCode := some 1 }) =
      (HandlerResult.error ErrorCode.InvalidParams
        "Invalid parameters: prompt: Prompt too long", [])) ∧
    ((handleCallTool "gemini_query" { prompt := some "hi", model := none }
        (fun _ _ => Except.ok
          { success := false, output := "", error := some "boom", exitCode := some 1 })).1 =
      HandlerResult.error ErrorCode.InternalError
        ("Gemini CLI error: " ++ jsOrStr ((some "boom").getD "") "Unknown error")) := by
  have hlen : 10000 < (String.mk (List.replicate 10001 'a')).length := by
    show 10000 < (List.replicate 10001 'a').length
    rw [List.length_replicate]
    omega
  have t := validation_rejects_before_subprocess (String.mk (List.replicate 10001 'a'))
    none
    (fun _ _ => Except.ok
      { success := false, output := "", error := some "boom", exitCode := some 1 })
    hlen
  exact ⟨hlen, t.1,
    t.2.2.2.2 "hi" { success := false, output := "", error := some "boom", exitCode := some 1 }
      rfl rfl (by decide) (by decide)⟩
